import Mathlib

/-!
Verification of the oneDNN graph softmax kernel implementation
(`softmax_fwd_t` in `graph/backend/dnnl/kernels/softmax.cpp`): the
compile-time pass pipeline, the execution runtime (synchronous, SYCL and
OpenCL event-chained paths), the execution-args binding step and the
single-flight constant-tensor cache.

Machine addresses and buffer bases are modelled as `Nat`; an out-of-range
vector access (undefined behaviour in the C++ source) is modelled by
`Option`, with `none` standing for the undefined outcome.
-/

namespace Dnnl

/-! ## Compile-time pass pipeline (`softmax_fwd_t::compile_impl`) -/

/-- Names of the passes added to the pipeline by `softmax_fwd_t::compile_impl`. -/
inductive PassName where
  | lower_down
  | fuse_post_typecast_to_predecessor
  | remove_quant_data_with_no_effect
  | replace_quant_data_with_binary_post_op
  | binary_canonicalization
  | binary_broadcast_swap
  | fuse_post_ops
  | convert_to_runtime_dst_scales
  | fuse_dst_scales
  | infer_shape
  | constant_propagation
  | layout_propagation
  | memory_plan
  | compile_ops
  deriving DecidableEq, Repr

/-- The ordered list of passes added by `softmax_fwd_t::compile_impl`,
parameterised by the process-wide constant-cache flag
(`enabled_constant_cache()`).  Mirrors the sequence of
`BACKEND_DNNL_ADD_PASS` calls. -/
def compile_pipeline (enabled_constant_cache : Bool) : List PassName :=
  [PassName.lower_down,
   PassName.fuse_post_typecast_to_predecessor,
   PassName.remove_quant_data_with_no_effect,
   PassName.replace_quant_data_with_binary_post_op,
   PassName.binary_canonicalization,
   PassName.binary_broadcast_swap,
   PassName.fuse_post_ops,
   PassName.convert_to_runtime_dst_scales,
   PassName.fuse_dst_scales,
   PassName.infer_shape]
  ++ (if enabled_constant_cache then [PassName.constant_propagation] else [])
  ++ [PassName.layout_propagation]
  ++ (if enabled_constant_cache then [PassName.constant_propagation] else [])
  ++ [PassName.memory_plan, PassName.compile_ops]

/-- Claim C3, counterexample: in the pipeline built with the constant-cache
flag enabled, `layout_propagation` occurs once, not twice, and no
`constant_propagation` pass occurs after the `memory_plan` pass (both
occurrences are before memory planning), contradicting the claimed
"twice, once before and once after memory planning" schedule. -/
theorem c3_counterexample :
    (compile_pipeline true).count PassName.layout_propagation = 1 ∧
    (compile_pipeline false).count PassName.layout_propagation = 1 ∧
    ((compile_pipeline true).dropWhile
        (fun p => p ≠ PassName.memory_plan)).count PassName.constant_propagation = 0 := by
  decide

/-- Claim C3, amended: for every value of the constant-cache flag the
pipeline contains exactly one `layout_propagation` pass and exactly one
`memory_plan` pass; `constant_propagation` occurs exactly twice when the
flag is enabled and never when it is disabled; every `constant_propagation`
and the `layout_propagation` pass occur before `memory_plan`; and, with the
flag enabled, exactly one `constant_propagation` occurrence precedes
`layout_propagation` (so the two-pass folding schedule is around layout
propagation, not around memory planning). -/
theorem c3_pipeline_schedule (flag : Bool) :
    (compile_pipeline flag).count PassName.layout_propagation = 1 ∧
    (compile_pipeline flag).count PassName.constant_propagation
      = (if flag then 2 else 0) ∧
    (compile_pipeline flag).count PassName.memory_plan = 1 ∧
    ((compile_pipeline flag).dropWhile
        (fun p => p ≠ PassName.memory_plan)).count PassName.constant_propagation = 0 ∧
    ((compile_pipeline flag).dropWhile
        (fun p => p ≠ PassName.memory_plan)).count PassName.layout_propagation = 0 ∧
    ((compile_pipeline true).takeWhile
        (fun p => p ≠ PassName.layout_propagation)).count PassName.constant_propagation = 1 := by
  cases flag <;> decide

/-- Claim C3 witness: with the constant-cache flag enabled,
`layout_propagation` occurs exactly once in the pipeline. -/
theorem c3_schedule_witness :
    (compile_pipeline true).count PassName.layout_propagation = 1 :=
  (c3_pipeline_schedule true).1

/-- Claim C8: the `constant_propagation` pass appears in the compile
pipeline if and only if the process-wide constant-cache flag is enabled;
with the flag disabled the pipeline contains no constant-propagation
step. -/
theorem c8_constant_propagation_iff_flag (flag : Bool) :
    PassName.constant_propagation ∈ compile_pipeline flag ↔ flag = true := by
  cases flag <;> decide

/-- Claim C8 witness: with the flag enabled, `constant_propagation` is in
the pipeline. -/
theorem c8_flag_witness :
    PassName.constant_propagation ∈ compile_pipeline true :=
  (c8_constant_propagation_iff_flag true).mpr rfl

/-! ## Memory planner, grantor and execution args set -/

/-- The slice of `memory_planner_t` used by the kernel: the two pool sizes
and the per-offset-key byte offsets inside each pool, as computed at
compile time. -/
structure MemoryPlanner where
  total_internal_temporary_size : Nat
  total_internal_persistent_size : Nat
  temporary_offset : Nat → Nat
  persistent_offset : Nat → Nat

/-- `grantor_t::get`: resolve a pool-relative byte offset against a base
pointer. -/
def grantor_get (base offset : Nat) : Nat := base + offset

/-- `memory_planner_t::internal_temporary_grantor(buffer).get(key)`. -/
def internal_temporary_grantor (mp : MemoryPlanner) (base key : Nat) : Nat :=
  grantor_get base (mp.temporary_offset key)

/-- `memory_planner_t::internal_persistent_grantor(buffer).get(key)`. -/
def internal_persistent_grantor (mp : MemoryPlanner) (base key : Nat) : Nat :=
  grantor_get base (mp.persistent_offset key)

/-- A runtime tensor; only its data pointer matters here. -/
structure Tensor where
  data_handle : Nat
  deriving DecidableEq, Repr

/-- `execution_args_set_t`: the four binding categories.  Each entry pairs
a memory-object identifier with either an external tensor index
(`mems_use_external_inputs` / `mems_use_external_outputs`) or a
planner offset key (`mems_use_internal_temporary` /
`mems_use_internal_persistent`). -/
structure ExecutionArgsSet where
  mems_use_external_inputs : List (Nat × Nat)
  mems_use_external_outputs : List (Nat × Nat)
  mems_use_internal_temporary : List (Nat × Nat)
  mems_use_internal_persistent : List (Nat × Nat)

/-- The loop over `res->get_mems_use_external_inputs()` (and likewise for
outputs) in `softmax_fwd_t::prepare_args_set`:
`mem_idx.first.set_data_handle(tensors[mem_idx.second].get_data_handle())`.
The `std::vector` access is unchecked in the source; here an out-of-range
index yields `none`. -/
def bind_external : List (Nat × Nat) → List Tensor → Option (List (Nat × Nat))
  | [], _ => some []
  | mi :: rest, tensors =>
    match tensors.get? mi.2 with
    | none => none
    | some t =>
      match bind_external rest tensors with
      | none => none
      | some binds => some ((mi.1, t.data_handle) :: binds)

/-- Auxiliary: a filterMap that keeps exactly the elements satisfying `p`
is the same as filtering by `p` and mapping. -/
theorem filterMap_if_some {α : Type} (p : Nat → Bool) (f : Nat → α) (l : List Nat) :
    l.filterMap (fun i => if p i then some (f i) else none)
      = (l.filter (fun i => p i)).map f := by
  induction l with
  | nil => rfl
  | cons a t ih =>
      by_cases h : p a
      · simp [List.filterMap_cons, List.filter_cons, h, ih]
      · simp [List.filterMap_cons, List.filter_cons, h, ih]

/-- Auxiliary: a filterMap that skips exactly the elements satisfying `p`
is the same as filtering by `!p` and mapping. -/
theorem filterMap_if_none {α : Type} (p : Nat → Bool) (f : Nat → α) (l : List Nat) :
    l.filterMap (fun i => if p i then none else some (f i))
      = (l.filter (fun i => !p i)).map f := by
  induction l with
  | nil => rfl
  | cons a t ih =>
      by_cases h : p a
      · simp [List.filterMap_cons, List.filter_cons, h, ih]
      · simp [List.filterMap_cons, List.filter_cons, h, ih]

/-- `softmax_fwd_t::prepare_args_set`: rebind external inputs, external
outputs, then the internal-temporary operands through
`internal_temporary_grantor` over the scratchpad buffer.  Returns the
resulting (memory-object, address) bindings, or `none` when an external
tensor index is out of range. -/
def prepare_args_set (mp : MemoryPlanner) (res : ExecutionArgsSet)
    (inputs outputs : List Tensor) (scratch_base : Nat) :
    Option (List (Nat × Nat)) :=
  match bind_external res.mems_use_external_inputs inputs with
  | none => none
  | some in_binds =>
    match bind_external res.mems_use_external_outputs outputs with
    | none => none
    | some out_binds =>
        some (in_binds ++ out_binds
          ++ res.mems_use_internal_temporary.map
              (fun mk => (mk.1, internal_temporary_grantor mp scratch_base mk.2)))

/-! ## Synchronous execution (`softmax_fwd_t::execute_impl`) -/

/-- Execution status, mirroring `dnnl::impl::status_t` values used by the
runtime. -/
inductive Status where
  | success
  | out_of_memory
  | invalid_arguments
  | runtime_error
  deriving DecidableEq, Repr

/-- The compiled subgraph as the execute path sees it:
`subgraph_->is_constant_[i]` flags kernel `i` of `subgraph_->execs_` as
constant-only; the list length is the number of compiled kernels. -/
structure Subgraph where
  is_constant : List Bool
  deriving DecidableEq, Repr

/-- Observable events of one synchronous execute call. -/
inductive ExecEvent where
  | alloc_persistent (size : Nat)
  | bind_persistent (binds : List (Nat × Nat))
  | run_kernel (i : Nat) (st : Status)
  | publish_buffer (base : Nat)
  deriving DecidableEq, Repr

/-- The internal-persistent rebinding loop
(`c_grantor.get(mem_offkey.second)` over
`res->get_mems_use_internal_persistent()`) for a constant buffer based at
`base`. -/
def persistent_binds (mp : MemoryPlanner) (res : ExecutionArgsSet) (base : Nat) :
    List (Nat × Nat) :=
  res.mems_use_internal_persistent.map
    (fun mk => (mk.1, internal_persistent_grantor mp base mk.2))

/-- The constant-kernel loop of the cache-miss branch:
`for i, if (!is_constant_[i]) continue; execs_[i]->execute(...)`.
Kernel `i`'s outcome is `kres i` (kernels are opaque collaborators). -/
def constant_kernel_runs (sg : Subgraph) (kres : Nat → Status) : List ExecEvent :=
  (List.range sg.is_constant.length).filterMap
    (fun i => if sg.is_constant.getD i false then some (ExecEvent.run_kernel i (kres i))
              else none)

/-- The main kernel loop:
`for i, if (is_constant_[i]) continue; execs_[i]->execute(...)`. -/
def main_kernel_runs (sg : Subgraph) (kres : Nat → Status) : List ExecEvent :=
  (List.range sg.is_constant.length).filterMap
    (fun i => if sg.is_constant.getD i false then none
              else some (ExecEvent.run_kernel i (kres i)))

/-- Outcome of `dnnl_constant_cache_get_or_add` as the execute path
consumes it: `hit base` models `cached_value.valid()` returning a cached
buffer based at `base`; `miss fresh_base` models the invalid-handle branch
where the freshly allocated `dnnl_constant_buffer_t` ends up based at
`fresh_base`. -/
inductive CacheLookup where
  | hit (base : Nat)
  | miss (fresh_base : Nat)
  deriving DecidableEq, Repr

/-- The `enabled_constant_cache()` branch of `execute_impl`: on a hit,
rebind the internal-persistent operands to the cached buffer; on a miss,
allocate a fresh persistent buffer of
`total_internal_persistent_size()`, rebind, run every constant-flagged
kernel in index order, then publish the buffer
(`c_promise.set_value(c_buffer)`). -/
def resolve_constants (mp : MemoryPlanner) (res : ExecutionArgsSet) (sg : Subgraph)
    (kres : Nat → Status) : CacheLookup → List ExecEvent
  | CacheLookup.hit base => [ExecEvent.bind_persistent (persistent_binds mp res base)]
  | CacheLookup.miss base =>
      ExecEvent.alloc_persistent mp.total_internal_persistent_size
        :: ExecEvent.bind_persistent (persistent_binds mp res base)
        :: (constant_kernel_runs sg kres ++ [ExecEvent.publish_buffer base])

/-- Result of one synchronous execute call: either the
`assertm(scratchpad.size() >= ..., "no enough scratchpad memory")`
assertion aborted the call (debug builds only), or the call finished with
an event trace and a returned status. -/
inductive ExecOutcome where
  | assert_aborted
  | finished (trace : List ExecEvent) (st : Status)
  deriving DecidableEq, Repr

/-- `softmax_fwd_t::execute_impl`.  `debug_build` selects whether `assertm`
is live (it compiles away under `NDEBUG`); `scratch_size` is the size of
the acquired `temporary_scratchpad_t`; `lookup` is the outcome of
`dnnl_constant_cache_get_or_add`; `kres i` is kernel `i`'s status.  The
source checks no kernel status and ends with `return status::success;`.
`none` models the undefined behaviour of an out-of-range external tensor
access inside `prepare_args_set`. -/
def execute_impl (mp : MemoryPlanner) (res : ExecutionArgsSet) (sg : Subgraph)
    (debug_build enabled_constant_cache : Bool) (lookup : CacheLookup)
    (kres : Nat → Status) (inputs outputs : List Tensor)
    (scratch_base scratch_size : Nat) : Option ExecOutcome :=
  if debug_build = true ∧ scratch_size < mp.total_internal_temporary_size then
    some ExecOutcome.assert_aborted
  else
    match prepare_args_set mp res inputs outputs scratch_base with
    | none => none
    | some _ =>
        some (ExecOutcome.finished
          ((if enabled_constant_cache then resolve_constants mp res sg kres lookup
            else [])
            ++ main_kernel_runs sg kres)
          Status.success)

/-- The main kernel loop runs exactly the non-constant kernels, in index
order. -/
theorem main_kernel_runs_eq (sg : Subgraph) (kres : Nat → Status) :
    main_kernel_runs sg kres
      = ((List.range sg.is_constant.length).filter
          (fun i => !(sg.is_constant.getD i false))).map
          (fun i => ExecEvent.run_kernel i (kres i)) :=
  filterMap_if_none _ _ _

/-- The constant-loop runs exactly the constant-flagged kernels, in index
order. -/
theorem constant_kernel_runs_eq (sg : Subgraph) (kres : Nat → Status) :
    constant_kernel_runs sg kres
      = ((List.range sg.is_constant.length).filter
          (fun i => sg.is_constant.getD i false)).map
          (fun i => ExecEvent.run_kernel i (kres i)) :=
  filterMap_if_some _ _ _

/-- Claim C4: in a finished synchronous execute call with a constant-cache
hit, the trace consists of rebinding the internal-persistent operands to
the cached buffer through the persistent grantor, followed by runs of
exactly the kernels not flagged constant, in the index (topological) order
fixed at compile time; no constant-flagged kernel is executed. -/
theorem c4_run_kernels (mp : MemoryPlanner) (res : ExecutionArgsSet) (sg : Subgraph)
    (debug_build : Bool) (base : Nat) (kres : Nat → Status)
    (inputs outputs : List Tensor) (scratch_base scratch_size : Nat)
    (trace : List ExecEvent) (st : Status)
    (h : execute_impl mp res sg debug_build true (CacheLookup.hit base) kres
          inputs outputs scratch_base scratch_size
          = some (ExecOutcome.finished trace st)) :
    trace = ExecEvent.bind_persistent (persistent_binds mp res base)
        :: ((List.range sg.is_constant.length).filter
            (fun i => !(sg.is_constant.getD i false))).map
            (fun i => ExecEvent.run_kernel i (kres i)) ∧
    ∀ i st2, sg.is_constant.getD i false = true →
      ExecEvent.run_kernel i st2 ∉ trace := by
  unfold execute_impl at h
  split at h
  · exact absurd (Option.some.inj h) (by intro hc; cases hc)
  · split at h
    · cases h
    · have htr : trace
          = resolve_constants mp res sg kres (CacheLookup.hit base)
              ++ main_kernel_runs sg kres := by
        have := Option.some.inj h
        cases this
        rfl
      rw [resolve_constants, main_kernel_runs_eq] at htr
      refine ⟨htr, ?_⟩
      intro i st2 hconst hmem
      rw [htr] at hmem
      rcases List.mem_cons.mp hmem with heq | hmem2
      · cases heq
      · rcases List.mem_map.mp hmem2 with ⟨j, hj, hje⟩
        have hji : j = i := by
          cases hje
          rfl
        subst hji
        have := (List.mem_filter.mp hj).2
        rw [hconst] at this
        cases this

/-- Claim C4 witness: concrete cache-hit execution with kernels
`[constant, non-constant]`; the constant kernel 0 does not appear in the
trace. -/
theorem c4_witness :
    ExecEvent.run_kernel 0 Status.success
      ∉ [ExecEvent.bind_persistent [(7, 103)],
         ExecEvent.run_kernel 1 Status.success] :=
  (c4_run_kernels ⟨0, 8, fun _ => 0, fun k => k⟩ ⟨[], [], [], [(7, 3)]⟩
      ⟨[true, false]⟩ false 100 (fun _ => Status.success) [] [] 0 0
      [ExecEvent.bind_persistent [(7, 103)], ExecEvent.run_kernel 1 Status.success]
      Status.success rfl).2 0 Status.success rfl

/-- Claim C5: in a finished synchronous execute call with a constant-cache
miss, the trace is: allocate a fresh persistent buffer sized to the
planner's total internal-persistent size, rebind the internal-persistent
operands through the persistent grantor over that buffer, run exactly the
constant-flagged kernels in index order, publish the buffer
(`c_promise.set_value`), then the main loop; every constant-flagged
kernel's run occurs strictly before the publish event. -/
theorem c5_cache_miss (mp : MemoryPlanner) (res : ExecutionArgsSet) (sg : Subgraph)
    (debug_build : Bool) (base : Nat) (kres : Nat → Status)
    (inputs outputs : List Tensor) (scratch_base scratch_size : Nat)
    (trace : List ExecEvent) (st : Status)
    (h : execute_impl mp res sg debug_build true (CacheLookup.miss base) kres
          inputs outputs scratch_base scratch_size
          = some (ExecOutcome.finished trace st)) :
    trace = ExecEvent.alloc_persistent mp.total_internal_persistent_size
        :: ExecEvent.bind_persistent (persistent_binds mp res base)
        :: (constant_kernel_runs sg kres
            ++ ExecEvent.publish_buffer base :: main_kernel_runs sg kres) ∧
    constant_kernel_runs sg kres
      = ((List.range sg.is_constant.length).filter
          (fun i => sg.is_constant.getD i false)).map
          (fun i => ExecEvent.run_kernel i (kres i)) ∧
    ∀ i, i < sg.is_constant.length → sg.is_constant.getD i false = true →
      List.Sublist [ExecEvent.run_kernel i (kres i), ExecEvent.publish_buffer base]
        trace := by
  unfold execute_impl at h
  split at h
  · exact absurd (Option.some.inj h) (by intro hc; cases hc)
  · split at h
    · cases h
    · have htr : trace
          = resolve_constants mp res sg kres (CacheLookup.miss base)
              ++ main_kernel_runs sg kres := by
        have := Option.some.inj h
        cases this
        rfl
      rw [resolve_constants] at htr
      simp only [List.cons_append, List.append_assoc, List.singleton_append] at htr
      refine ⟨htr, constant_kernel_runs_eq sg kres, ?_⟩
      intro i hi hconst
      have hmem : ExecEvent.run_kernel i (kres i) ∈ constant_kernel_runs sg kres := by
        rw [constant_kernel_runs_eq]
        exact List.mem_map.mpr ⟨i,
          List.mem_filter.mpr ⟨List.mem_range.mpr hi, hconst⟩, rfl⟩
      have hsub : List.Sublist
          [ExecEvent.run_kernel i (kres i), ExecEvent.publish_buffer base]
          (constant_kernel_runs sg kres
            ++ ExecEvent.publish_buffer base :: main_kernel_runs sg kres) := by
        have h1 : List.Sublist [ExecEvent.run_kernel i (kres i)]
            (constant_kernel_runs sg kres) := List.singleton_sublist.mpr hmem
        have h2 : List.Sublist [ExecEvent.publish_buffer base]
            (ExecEvent.publish_buffer base :: main_kernel_runs sg kres) :=
          List.singleton_sublist.mpr (List.mem_cons_self _ _)
        exact h1.append h2
      rw [htr]
      exact hsub.cons _ |>.cons _

/-- Claim C5 witness: concrete cache-miss execution with kernels
`[constant, non-constant]`; the constant kernel's run precedes the
publish event in the trace. -/
theorem c5_witness :
    List.Sublist
      [ExecEvent.run_kernel 0 Status.success, ExecEvent.publish_buffer 100]
      [ExecEvent.alloc_persistent 8, ExecEvent.bind_persistent [(7, 103)],
       ExecEvent.run_kernel 0 Status.success, ExecEvent.publish_buffer 100,
       ExecEvent.run_kernel 1 Status.success] := by
  have := (c5_cache_miss ⟨0, 8, fun _ => 0, fun k => k⟩ ⟨[], [], [], [(7, 3)]⟩
      ⟨[true, false]⟩ false 100 (fun _ => Status.success) [] [] 0 0
      [ExecEvent.alloc_persistent 8, ExecEvent.bind_persistent [(7, 103)],
       ExecEvent.run_kernel 0 Status.success, ExecEvent.publish_buffer 100,
       ExecEvent.run_kernel 1 Status.success]
      Status.success rfl).2.2 0 (by decide) rfl
  exact this

/-- Claim C2, counterexample: an execute call whose acquired scratch
buffer (size 0) is smaller than the planner's temporary-pool size (4), in
a build with assertions disabled, runs its kernel and returns success —
no ResourceExhausted (out-of-memory) failure is produced before the
kernels run. -/
theorem c2_counterexample :
    execute_impl ⟨4, 0, fun _ => 0, fun _ => 0⟩ ⟨[], [], [], []⟩ ⟨[false]⟩
        false false (CacheLookup.hit 0) (fun _ => Status.success) [] [] 0 0
      = some (ExecOutcome.finished [ExecEvent.run_kernel 0 Status.success]
          Status.success) := by
  rfl

/-- Claim C2, amended: when the acquired scratch buffer is smaller than
the planner's temporary-pool size, a debug-build assertion
(`assertm(scratchpad.size() >= ..., "no enough scratchpad memory")`)
aborts the call before any kernel runs; no ResourceExhausted status is
ever returned — every finished call reports success — and in builds with
assertions disabled the undersized call proceeds to run kernels
normally. -/
theorem c2_scratch_assert (mp : MemoryPlanner) (res : ExecutionArgsSet)
    (sg : Subgraph) (ecc : Bool) (lookup : CacheLookup) (kres : Nat → Status)
    (inputs outputs : List Tensor) (scratch_base scratch_size : Nat)
    (hlt : scratch_size < mp.total_internal_temporary_size) :
    execute_impl mp res sg true ecc lookup kres inputs outputs
        scratch_base scratch_size
      = some ExecOutcome.assert_aborted ∧
    ∀ (debug_build : Bool) (trace : List ExecEvent) (st : Status),
      execute_impl mp res sg debug_build ecc lookup kres inputs outputs
          scratch_base scratch_size
        = some (ExecOutcome.finished trace st) → st = Status.success := by
  constructor
  · unfold execute_impl
    rw [if_pos ⟨rfl, hlt⟩]
  · intro debug_build trace st h
    unfold execute_impl at h
    split at h
    · exact absurd (Option.some.inj h) (by intro hc; cases hc)
    · split at h
      · cases h
      · have := Option.some.inj h
        cases this
        rfl

/-- Claim C2 witness: concrete undersized-scratch call in a debug build
aborts via the assertion. -/
theorem c2_witness :
    execute_impl ⟨4, 0, fun _ => 0, fun _ => 0⟩ ⟨[], [], [], []⟩ ⟨[false]⟩
        true false (CacheLookup.hit 0) (fun _ => Status.success) [] [] 0 0
      = some ExecOutcome.assert_aborted :=
  (c2_scratch_assert ⟨4, 0, fun _ => 0, fun _ => 0⟩ ⟨[], [], [], []⟩ ⟨[false]⟩
      false (CacheLookup.hit 0) (fun _ => Status.success) [] [] 0 0
      (by decide)).1

/-- Claim C7, counterexample: in a synchronous execute call whose first
kernel reports a fatal error (`runtime_error`), the two following kernels
still run and the call returns success — the failure neither aborts the
remaining sequence nor surfaces as a failure return. -/
theorem c7_counterexample :
    execute_impl ⟨0, 0, fun _ => 0, fun _ => 0⟩ ⟨[], [], [], []⟩
        ⟨[false, false, false]⟩ false false (CacheLookup.hit 0)
        (fun i => if i = 0 then Status.runtime_error else Status.success) [] [] 0 0
      = some (ExecOutcome.finished
          [ExecEvent.run_kernel 0 Status.runtime_error,
           ExecEvent.run_kernel 1 Status.success,
           ExecEvent.run_kernel 2 Status.success] Status.success) := by
  rfl

/-- Claim C7, amended: the synchronous execute path never consults the
individual kernel statuses: every finished call returns success, and every
non-constant kernel runs (appears in the trace) no matter which kernels
failed. -/
theorem c7_kernel_errors_ignored (mp : MemoryPlanner) (res : ExecutionArgsSet)
    (sg : Subgraph) (debug_build ecc : Bool) (lookup : CacheLookup)
    (kres : Nat → Status) (inputs outputs : List Tensor)
    (scratch_base scratch_size : Nat) (trace : List ExecEvent) (st : Status)
    (h : execute_impl mp res sg debug_build ecc lookup kres inputs outputs
          scratch_base scratch_size
        = some (ExecOutcome.finished trace st)) :
    st = Status.success ∧
    ∀ i, i < sg.is_constant.length → sg.is_constant.getD i false = false →
      ExecEvent.run_kernel i (kres i) ∈ trace := by
  unfold execute_impl at h
  split at h
  · exact absurd (Option.some.inj h) (by intro hc; cases hc)
  · split at h
    · cases h
    · have htr : trace
          = (if ecc then resolve_constants mp res sg kres lookup else [])
              ++ main_kernel_runs sg kres ∧ st = Status.success := by
        have := Option.some.inj h
        cases this
        exact ⟨rfl, rfl⟩
      refine ⟨htr.2, ?_⟩
      intro i hi hnc
      rw [htr.1]
      refine List.mem_append_right _ ?_
      rw [main_kernel_runs_eq]
      exact List.mem_map.mpr ⟨i,
        List.mem_filter.mpr ⟨List.mem_range.mpr hi, by rw [hnc]; rfl⟩, rfl⟩

/-- Claim C7 witness: in the concrete three-kernel run whose first kernel
failed, kernel 2 still appears in the trace. -/
theorem c7_witness :
    ExecEvent.run_kernel 2 Status.success
      ∈ [ExecEvent.run_kernel 0 Status.runtime_error,
         ExecEvent.run_kernel 1 Status.success,
         ExecEvent.run_kernel 2 Status.success] :=
  (c7_kernel_errors_ignored ⟨0, 0, fun _ => 0, fun _ => 0⟩ ⟨[], [], [], []⟩
      ⟨[false, false, false]⟩ false false (CacheLookup.hit 0)
      (fun i => if i = 0 then Status.runtime_error else Status.success) [] [] 0 0
      [ExecEvent.run_kernel 0 Status.runtime_error,
       ExecEvent.run_kernel 1 Status.success,
       ExecEvent.run_kernel 2 Status.success] Status.success rfl).2 2
      (by decide) rfl

/-- Auxiliary: the external-binding loop succeeds exactly when every bound
external index is in range of the supplied tensor vector. -/
theorem bind_external_isSome (mems : List (Nat × Nat)) (tensors : List Tensor) :
    (bind_external mems tensors).isSome = true
      ↔ ∀ mk ∈ mems, mk.2 < tensors.length := by
  induction mems with
  | nil => simp [bind_external]
  | cons mi rest ih =>
      cases h : tensors.get? mi.2 with
      | none =>
          have hlen : tensors.length ≤ mi.2 := List.get?_eq_none.mp h
          simp only [bind_external, h]
          constructor
          · intro hs; cases hs
          · intro hall
            exact absurd (hall mi (List.mem_cons_self _ _)) (Nat.not_lt.mpr hlen)
      | some t =>
          have hlt : mi.2 < tensors.length := by
            by_contra hc
            rw [List.get?_eq_none.mpr (Nat.not_lt.mp hc)] at h
            cases h
          cases h2 : bind_external rest tensors with
          | none =>
              simp only [bind_external, h, h2]
              constructor
              · intro hs; cases hs
              · intro hall
                have := ih.mpr (fun mk hmk => hall mk (List.mem_cons_of_mem _ hmk))
                rw [h2] at this
                cases this
          | some binds =>
              simp only [bind_external, h, h2]
              constructor
              · intro _ mk hmk
                rcases List.mem_cons.mp hmk with heq | hmem
                · rw [heq]; exact hlt
                · exact (ih.mp (by rw [h2]; rfl)) mk hmem
              · intro _; rfl

/-- Claim C9: `prepare_args_set` performs no validation — its external
binding step is well-defined ({`some`}) exactly when every external-input
index is below `inputs.length` and every external-output index is below
`outputs.length` (out of range is undefined behaviour, modelled `none`);
and no finished execute call ever returns `invalid_arguments`, so a count
mismatch is never reported as an error. -/
theorem c9_unchecked_external_binding (mp : MemoryPlanner) (res : ExecutionArgsSet)
    (inputs outputs : List Tensor) (scratch_base : Nat) :
    ((prepare_args_set mp res inputs outputs scratch_base).isSome = true ↔
      ((∀ mk ∈ res.mems_use_external_inputs, mk.2 < inputs.length) ∧
       (∀ mk ∈ res.mems_use_external_outputs, mk.2 < outputs.length))) ∧
    (∀ (sg : Subgraph) (debug_build ecc : Bool) (lookup : CacheLookup)
        (kres : Nat → Status) (scratch_size : Nat)
        (trace : List ExecEvent) (st : Status),
      execute_impl mp res sg debug_build ecc lookup kres inputs outputs
          scratch_base scratch_size
        = some (ExecOutcome.finished trace st) → st ≠ Status.invalid_arguments) := by
  constructor
  · unfold prepare_args_set
    cases hin : bind_external res.mems_use_external_inputs inputs with
    | none =>
        simp only []
        constructor
        · intro hs; cases hs
        · intro hall
          have := (bind_external_isSome res.mems_use_external_inputs inputs).mpr hall.1
          rw [hin] at this
          cases this
    | some in_binds =>
        have hin_all := (bind_external_isSome res.mems_use_external_inputs inputs).mp
          (by rw [hin]; rfl)
        cases hout : bind_external res.mems_use_external_outputs outputs with
        | none =>
            simp only []
            constructor
            · intro hs; cases hs
            · intro hall
              have := (bind_external_isSome res.mems_use_external_outputs outputs).mpr
                hall.2
              rw [hout] at this
              cases this
        | some out_binds =>
            have hout_all := (bind_external_isSome res.mems_use_external_outputs
              outputs).mp (by rw [hout]; rfl)
            simp only []
            exact iff_of_true rfl ⟨hin_all, hout_all⟩
  · intro sg debug_build ecc lookup kres scratch_size trace st h
    unfold execute_impl at h
    split at h
    · exact absurd (Option.some.inj h) (by intro hc; cases hc)
    · split at h
      · cases h
      · have := Option.some.inj h
        cases this
        intro hc
        cases hc

/-- Claim C9 witness: with one external-input binding at index 0 and one
supplied input tensor, the binding step is well-defined. -/
theorem c9_witness :
    (prepare_args_set ⟨0, 0, fun _ => 0, fun _ => 0⟩ ⟨[(1, 0)], [], [], []⟩
        [⟨42⟩] [] 0).isSome = true :=
  (c9_unchecked_external_binding ⟨0, 0, fun _ => 0, fun _ => 0⟩
      ⟨[(1, 0)], [], [], []⟩ [⟨42⟩] [] 0).1.mpr
    ⟨by decide, by decide⟩

/-! ## Asynchronous execution (`softmax_fwd_t::sycl_execute_impl` and
`softmax_fwd_t::ocl_execute_impl`) -/

/-- A device completion event.  `default_event` models a
default-constructed `::sycl::event` (resp. the zero-initialised
`cl_event {}`); `completion i` models the event returned by kernel `i`'s
`execute_sycl` / `execute_ocl` call. -/
inductive Event where
  | default_event
  | completion (i : Nat)
  deriving DecidableEq, Repr

/-- The event-chained kernel loop
(`returned_event = execs_[i]->execute_XXX(stream, args, deps); deps = {returned_event};`)
run over a list of kernel indices, starting from wait-list `deps0`:
records, in order, each executed kernel index together with the wait-for
list it was passed. -/
def chain_calls (deps0 : List Event) : List Nat → List (Nat × List Event)
  | [] => []
  | i :: rest => (i, deps0) :: chain_calls [Event.completion i] rest

/-- The value of `returned_event` after the event-chained loop has
processed the given kernel indices, starting from `e0`. -/
def chain_final (e0 : Event) : List Nat → Event
  | [] => e0
  | i :: rest => chain_final (Event.completion i) rest

/-- The kernel indices executed by one asynchronous call, in source
order: the constant-flagged kernels of the cache-miss branch (only when
the constant cache is enabled and the lookup missed), followed by the
non-constant kernels of the main loop. -/
def async_executed_indices (sg : Subgraph) (ecc : Bool) (lookup : CacheLookup) :
    List Nat :=
  (if ecc then
    match lookup with
    | CacheLookup.miss _ =>
        (List.range sg.is_constant.length).filterMap
          (fun i => if sg.is_constant.getD i false then some i else none)
    | CacheLookup.hit _ => []
   else [])
  ++ (List.range sg.is_constant.length).filterMap
      (fun i => if sg.is_constant.getD i false then none else some i)

/-- Result of one finished asynchronous execute call: the kernel calls
with the wait-lists they received, the event attached to the scratchpad
(`scratchpad.set_deps(returned_event)`), and the event written through the
caller's output event pointer (`none` when the pointer is null). -/
structure AsyncResult where
  calls : List (Nat × List Event)
  scratch_dep : Event
  out_event : Option Event
  deriving DecidableEq, Repr

/-- Outcome of an asynchronous execute call (same scratchpad assertion as
the synchronous path). -/
inductive AsyncOutcome where
  | assert_aborted
  | finished (r : AsyncResult)
  deriving DecidableEq, Repr

/-- `softmax_fwd_t::sycl_execute_impl`: scratchpad acquisition and
assertion, `prepare_args_set`, then the event-chained constant-branch and
main kernel loops threading `deps = {returned_event}`; finally
`scratchpad.set_deps(returned_event)` and
`if (sycl_event) *sycl_event = returned_event;`.  `returned_event` starts
default-constructed; the cache-miss publication
(`c_promise.set_value`) does not touch the event chain. -/
def sycl_execute_impl (mp : MemoryPlanner) (res : ExecutionArgsSet) (sg : Subgraph)
    (debug_build enabled_constant_cache : Bool) (lookup : CacheLookup)
    (inputs outputs : List Tensor) (scratch_base scratch_size : Nat)
    (sycl_deps : List Event) (has_out_ptr : Bool) : Option AsyncOutcome :=
  if debug_build = true ∧ scratch_size < mp.total_internal_temporary_size then
    some AsyncOutcome.assert_aborted
  else
    match prepare_args_set mp res inputs outputs scratch_base with
    | none => none
    | some _ =>
        some (AsyncOutcome.finished
          ⟨chain_calls sycl_deps
              (async_executed_indices sg enabled_constant_cache lookup),
           chain_final Event.default_event
              (async_executed_indices sg enabled_constant_cache lookup),
           if has_out_ptr then
             some (chain_final Event.default_event
               (async_executed_indices sg enabled_constant_cache lookup))
           else none⟩)

/-- `softmax_fwd_t::ocl_execute_impl`: textually identical to the SYCL
path with `execute_ocl` in place of `execute_sycl` and `cl_event` in place
of `::sycl::event`. -/
def ocl_execute_impl (mp : MemoryPlanner) (res : ExecutionArgsSet) (sg : Subgraph)
    (debug_build enabled_constant_cache : Bool) (lookup : CacheLookup)
    (inputs outputs : List Tensor) (scratch_base scratch_size : Nat)
    (cl_deps : List Event) (has_out_ptr : Bool) : Option AsyncOutcome :=
  if debug_build = true ∧ scratch_size < mp.total_internal_temporary_size then
    some AsyncOutcome.assert_aborted
  else
    match prepare_args_set mp res inputs outputs scratch_base with
    | none => none
    | some _ =>
        some (AsyncOutcome.finished
          ⟨chain_calls cl_deps
              (async_executed_indices sg enabled_constant_cache lookup),
           chain_final Event.default_event
              (async_executed_indices sg enabled_constant_cache lookup),
           if has_out_ptr then
             some (chain_final Event.default_event
               (async_executed_indices sg enabled_constant_cache lookup))
           else none⟩)

/-- Auxiliary: the first call of an event chain receives the initial
wait-list. -/
theorem chain_calls_head (d : List Event) (l : List Nat) (c : Nat × List Event)
    (h : (chain_calls d l).get? 0 = some c) : c.2 = d := by
  cases l with
  | nil => cases h
  | cons i rest =>
      have : c = (i, d) := Option.some.inj h.symm
      rw [this]

/-- Auxiliary: in an event chain, call `j+1` waits exactly on the
singleton completion event of call `j`. -/
theorem chain_calls_chain (deps0 : List Event) (idxs : List Nat) :
    ∀ j c c', (chain_calls deps0 idxs).get? j = some c →
      (chain_calls deps0 idxs).get? (j + 1) = some c' →
      c'.2 = [Event.completion c.1] := by
  induction idxs generalizing deps0 with
  | nil => intro j c c' h; cases h
  | cons i rest ih =>
      intro j c c' h h'
      cases j with
      | zero =>
          have hc : c = (i, deps0) := Option.some.inj h.symm
          have : (chain_calls [Event.completion i] rest).get? 0 = some c' := h'
          rw [chain_calls_head _ _ _ this, hc]
      | succ k =>
          exact ih [Event.completion i] k c c' h h'

/-- Auxiliary: when the chain is nonempty, the loop's final
`returned_event` is the completion event of the last executed kernel,
whatever the initial event was. -/
theorem chain_calls_getLast (deps0 : List Event) (idxs : List Nat)
    (c : Nat × List Event) (h : (chain_calls deps0 idxs).getLast? = some c)
    (e0 : Event) : chain_final e0 idxs = Event.completion c.1 := by
  induction idxs generalizing deps0 e0 with
  | nil => cases h
  | cons i rest ih =>
      cases rest with
      | nil =>
          have hc : c = (i, deps0) := by
            rw [chain_calls, chain_calls] at h
            simp only [List.getLast?] at h
            exact Option.some.inj h.symm
          rw [hc, chain_final, chain_final]
      | cons i2 rest2 =>
          rw [chain_final]
          refine ih [Event.completion i] ?_ (Event.completion i)
          rw [chain_calls, chain_calls, List.getLast?_cons_cons] at h
          rw [chain_calls]
          exact h

/-- Claim C6: in both asynchronous models, the SYCL and OpenCL paths
compute identical results; the first executed kernel receives the
caller-supplied dependency list; every later kernel waits on exactly the
singleton completion event of the immediately preceding kernel; the final
event of the chain is the last kernel's completion event, is attached to
the scratch buffer, and is written through the caller's (non-null) output
event pointer. -/
theorem c6_event_chain (mp : MemoryPlanner) (res : ExecutionArgsSet) (sg : Subgraph)
    (debug_build ecc : Bool) (lookup : CacheLookup)
    (inputs outputs : List Tensor) (scratch_base scratch_size : Nat)
    (sycl_deps : List Event) (has_out_ptr : Bool) (r : AsyncResult)
    (h : sycl_execute_impl mp res sg debug_build ecc lookup inputs outputs
          scratch_base scratch_size sycl_deps has_out_ptr
        = some (AsyncOutcome.finished r)) :
    ocl_execute_impl mp res sg debug_build ecc lookup inputs outputs
        scratch_base scratch_size sycl_deps has_out_ptr
      = some (AsyncOutcome.finished r) ∧
    (∀ c, r.calls.get? 0 = some c → c.2 = sycl_deps) ∧
    (∀ j c c', r.calls.get? j = some c → r.calls.get? (j + 1) = some c' →
      c'.2 = [Event.completion c.1]) ∧
    (∀ c, r.calls.getLast? = some c → r.scratch_dep = Event.completion c.1) ∧
    r.out_event = (if has_out_ptr then some r.scratch_dep else none) := by
  have h0 := h
  have hocl : ocl_execute_impl mp res sg debug_build ecc lookup inputs outputs
      scratch_base scratch_size sycl_deps has_out_ptr
      = sycl_execute_impl mp res sg debug_build ecc lookup inputs outputs
          scratch_base scratch_size sycl_deps has_out_ptr := rfl
  unfold sycl_execute_impl at h
  split at h
  · exact absurd (Option.some.inj h) (by intro hc; cases hc)
  · split at h
    · cases h
    · have hinj := Option.some.inj h
      injection hinj with h2
      subst h2
      refine ⟨hocl.trans h0, ?_, ?_, ?_, rfl⟩
      · intro c hc
        exact chain_calls_head _ _ _ hc
      · intro j c c' h1 h2
        exact chain_calls_chain _ _ j c c' h1 h2
      · intro c hc
        exact chain_calls_getLast _ _ _ hc Event.default_event

/-- Claim C6 witness: concrete two-kernel asynchronous call; the OpenCL
path returns the same chained result, in which kernel 0 received the
caller's wait-list, kernel 1 waits on kernel 0's completion, and the final
completion event of kernel 1 is attached to the scratch buffer and the
output pointer. -/
theorem c6_witness :
    ocl_execute_impl ⟨0, 0, fun _ => 0, fun _ => 0⟩ ⟨[], [], [], []⟩
        ⟨[false, false]⟩ false false (CacheLookup.hit 0) [] [] 0 0
        [Event.completion 9] true
      = some (AsyncOutcome.finished
          ⟨[(0, [Event.completion 9]), (1, [Event.completion 0])],
           Event.completion 1, some (Event.completion 1)⟩) :=
  (c6_event_chain ⟨0, 0, fun _ => 0, fun _ => 0⟩ ⟨[], [], [], []⟩
      ⟨[false, false]⟩ false false (CacheLookup.hit 0) [] [] 0 0
      [Event.completion 9] true
      ⟨[(0, [Event.completion 9]), (1, [Event.completion 0])],
       Event.completion 1, some (Event.completion 1)⟩ rfl).1

/-- Claim C10: when the asynchronous call executes no kernel at all —
the executed-index list is empty, as happens when every kernel is
constant-flagged and the constant cache hits, or when the kernel list is
empty — the event attached to the scratch buffer and written to the
caller's output pointer is the default-constructed event, the same value
for every caller-supplied dependency list, so it carries no dependency on
the input events or on any kernel; the OpenCL path agrees with the SYCL
path. -/
theorem c10_empty_chain_default_event (mp : MemoryPlanner) (res : ExecutionArgsSet)
    (sg : Subgraph) (debug_build ecc : Bool) (lookup : CacheLookup)
    (inputs outputs : List Tensor) (scratch_base scratch_size : Nat)
    (hempty : async_executed_indices sg ecc lookup = [])
    (hprep : (prepare_args_set mp res inputs outputs scratch_base).isSome = true)
    (hsz : mp.total_internal_temporary_size ≤ scratch_size) :
    ∀ (deps : List Event) (has_out_ptr : Bool),
      sycl_execute_impl mp res sg debug_build ecc lookup inputs outputs
          scratch_base scratch_size deps has_out_ptr
        = some (AsyncOutcome.finished
            ⟨[], Event.default_event,
             if has_out_ptr then some Event.default_event else none⟩) ∧
      ocl_execute_impl mp res sg debug_build ecc lookup inputs outputs
          scratch_base scratch_size deps has_out_ptr
        = sycl_execute_impl mp res sg debug_build ecc lookup inputs outputs
            scratch_base scratch_size deps has_out_ptr := by
  intro deps has_out_ptr
  constructor
  · unfold sycl_execute_impl
    rw [if_neg (by rintro ⟨-, hlt⟩; exact absurd hlt (Nat.not_lt.mpr hsz))]
    obtain ⟨v, hv⟩ := Option.isSome_iff_exists.mp hprep
    rw [hv, hempty]
    rfl
  · rfl

/-- Claim C10 witness: concrete all-constant two-kernel artifact with a
cache hit; the returned and scratch-attached event is the default event
even though the caller supplied a nontrivial dependency. -/
theorem c10_witness :
    sycl_execute_impl ⟨0, 0, fun _ => 0, fun _ => 0⟩ ⟨[], [], [], []⟩
        ⟨[true, true]⟩ false true (CacheLookup.hit 5) [] [] 0 0
        [Event.completion 9] true
      = some (AsyncOutcome.finished
          ⟨[], Event.default_event, some Event.default_event⟩) :=
  ((c10_empty_chain_default_event ⟨0, 0, fun _ => 0, fun _ => 0⟩ ⟨[], [], [], []⟩
      ⟨[true, true]⟩ false true (CacheLookup.hit 5) [] [] 0 0
      (by decide) (by decide) (by decide)) [Event.completion 9] true).1

/-! ## Single-flight constant tensor cache

The implementation of `constant_tensor_cache_t` /
`dnnl_constant_cache_get_or_add` is not part of the sources here; only its
caller is.  The cache is therefore modelled from the spec: a key-addressed
map whose `get_or_add` is atomic with respect to lookup-and-insert, with a
promise/future single-producer/multiple-waiter handoff. -/

/-- Modelled from the spec: the state of one `constant_tensor_cache_t`
entry — either a published (`ready`) buffer or a `pending` entry holding
the producer's future.  The cache implementation itself is not under the
given sources. -/
inductive CacheEntry where
  | ready (buf : Nat)
  | pending (fut : Nat)
  deriving DecidableEq, Repr

/-- Modelled from the spec: the cache's key-to-entry map, as an
association list. -/
def cache_lookup (entries : List (Nat × CacheEntry)) (key : Nat) :
    Option CacheEntry :=
  (entries.find? (fun e => e.1 == key)).map Prod.snd

/-- Modelled from the spec: what one caller of
`dnnl_constant_cache_get_or_add` gets back — an already-valid cached
buffer (`ready_hit`), an invalid handle making this caller the unique
producer for the key (`producer`), or the pending producer's future to
block on (`waiter`). -/
inductive GetOrAddResult where
  | producer
  | waiter (fut : Nat)
  | ready_hit (buf : Nat)
  deriving DecidableEq, Repr

/-- Modelled from the spec: one atomic `get_or_add(key, size, fut)` step.
If the key is absent the caller becomes the producer and its promise's
future is installed as the pending entry; otherwise the caller observes
the existing entry without modifying the cache. -/
def get_or_add (entries : List (Nat × CacheEntry)) (key fut : Nat) :
    GetOrAddResult × List (Nat × CacheEntry) :=
  match cache_lookup entries key with
  | some (CacheEntry.ready b) => (GetOrAddResult.ready_hit b, entries)
  | some (CacheEntry.pending f) => (GetOrAddResult.waiter f, entries)
  | none => (GetOrAddResult.producer, entries ++ [(key, CacheEntry.pending fut)])

/-- Modelled from the spec: the producer fulfilling its promise
(`c_promise.set_value(c_buffer)`) publishes buffer `b` under `key`. -/
def publish_entry (entries : List (Nat × CacheEntry)) (key b : Nat) :
    List (Nat × CacheEntry) :=
  entries.map (fun e => if e.1 = key then (e.1, CacheEntry.ready b) else e)

/-- A sequence of atomic `get_or_add` calls on one key, one per caller
future, in the order the callers' atomic sections interleave. -/
def run_calls (key : Nat) : List (Nat × CacheEntry) → List Nat →
    List GetOrAddResult × List (Nat × CacheEntry)
  | entries, [] => ([], entries)
  | entries, f :: rest =>
      let p := get_or_add entries key f
      let q := run_calls key p.2 rest
      (p.1 :: q.1, q.2)

/-- Modelled from the spec: an arbitrary interleaving of K concurrent
first-use execute calls on one fresh key.  The callers with futures
`f1 :: fs1` reach their atomic `get_or_add` before the producer publishes
buffer `b0`; the callers with futures `fs2` reach theirs afterwards.  The
producer is necessarily among the first group (the very first caller). -/
def single_flight_results (key f1 : Nat) (fs1 fs2 : List Nat) (b0 : Nat) :
    List GetOrAddResult :=
  let p := run_calls key [] (f1 :: fs1)
  let st2 := publish_entry p.2 key b0
  p.1 ++ (run_calls key st2 fs2).1

/-- The persistent buffer a caller finally observes: the producer observes
the buffer it allocated and published; a waiter blocks on the future and
reads its resolved value; a late caller reads the ready entry
directly. -/
def observed_buffer (b0 : Nat) (resolve : Nat → Option Nat) :
    GetOrAddResult → Option Nat
  | GetOrAddResult.producer => some b0
  | GetOrAddResult.waiter f => resolve f
  | GetOrAddResult.ready_hit b => some b

/-- What the execute path does with a `get_or_add` outcome: the producer
takes the cache-miss branch over its fresh buffer `b0`; waiters and ready
hits take the cache-hit branch over the buffer they observe. -/
def lookup_of (b0 : Nat) (resolve : Nat → Option Nat) :
    GetOrAddResult → CacheLookup
  | GetOrAddResult.producer => CacheLookup.miss b0
  | GetOrAddResult.waiter f => CacheLookup.hit ((resolve f).getD 0)
  | GetOrAddResult.ready_hit b => CacheLookup.hit b

/-- The constant-flagged kernel executions contained in one call's
resolve-constants step. -/
def resolve_constant_runs (mp : MemoryPlanner) (res : ExecutionArgsSet)
    (sg : Subgraph) (kres : Nat → Status) (lookup : CacheLookup) :
    List ExecEvent :=
  (resolve_constants mp res sg kres lookup).filter
    (fun e => match e with | ExecEvent.run_kernel _ _ => true | _ => false)

/-- Auxiliary: every later caller on a pending key becomes a waiter on the
pending future, leaving the cache unchanged. -/
theorem run_calls_pending (key f : Nat) (fs : List Nat) :
    run_calls key [(key, CacheEntry.pending f)] fs
      = (fs.map (fun _ => GetOrAddResult.waiter f),
         [(key, CacheEntry.pending f)]) := by
  induction fs with
  | nil => rfl
  | cons g rest ih =>
      simp [run_calls, get_or_add, cache_lookup, ih]

/-- Auxiliary: every caller after publication reads the ready buffer,
leaving the cache unchanged. -/
theorem run_calls_ready (key b : Nat) (fs : List Nat) :
    run_calls key [(key, CacheEntry.ready b)] fs
      = (fs.map (fun _ => GetOrAddResult.ready_hit b),
         [(key, CacheEntry.ready b)]) := by
  induction fs with
  | nil => rfl
  | cons g rest ih =>
      simp [run_calls, get_or_add, cache_lookup, ih]

/-- Auxiliary: flattening copies of the empty list yields the empty
list. -/
theorem flatten_map_nil {α β : Type} (l : List α) :
    (l.map (fun _ => ([] : List β))).flatten = [] := by
  induction l with
  | nil => rfl
  | cons a t ih => simp [ih]

/-- Auxiliary: the resolve-constants step of a cache-hit call executes no
kernel. -/
theorem resolve_constant_runs_hit (mp : MemoryPlanner) (res : ExecutionArgsSet)
    (sg : Subgraph) (kres : Nat → Status) (b : Nat) :
    resolve_constant_runs mp res sg kres (CacheLookup.hit b) = [] := rfl

/-- Auxiliary: the resolve-constants step of a cache-miss call executes
exactly the constant-flagged kernels. -/
theorem resolve_constant_runs_miss (mp : MemoryPlanner) (res : ExecutionArgsSet)
    (sg : Subgraph) (kres : Nat → Status) (b : Nat) :
    resolve_constant_runs mp res sg kres (CacheLookup.miss b)
      = constant_kernel_runs sg kres := by
  unfold resolve_constant_runs resolve_constants
  rw [List.filter_cons, List.filter_cons, List.filter_append, List.filter_cons]
  simp only [constant_kernel_runs_eq]
  generalize (List.range sg.is_constant.length).filter
      (fun i => sg.is_constant.getD i false) = l
  induction l with
  | nil => rfl
  | cons a t ih => simp [List.filter_cons, ih]

/-- Claim C1: for K concurrent first-use execute calls on one artifact
with the same constant-cache key (modelled, per the spec, as any
interleaving of their atomic `get_or_add` calls with the producer's
publication), exactly one caller — the first — becomes the producer; all
callers that arrive before publication block on that same producer's
future; every caller observes the same published buffer `b0`; and across
all K calls the constant-flagged kernels execute exactly once in total
(only the producer's cache-miss branch runs them). -/
theorem c1_single_flight (key f1 b0 : Nat) (fs1 fs2 : List Nat)
    (mp : MemoryPlanner) (res : ExecutionArgsSet) (sg : Subgraph)
    (kres : Nat → Status) :
    single_flight_results key f1 fs1 fs2 b0
      = GetOrAddResult.producer
          :: (fs1.map (fun _ => GetOrAddResult.waiter f1)
              ++ fs2.map (fun _ => GetOrAddResult.ready_hit b0)) ∧
    (single_flight_results key f1 fs1 fs2 b0).count GetOrAddResult.producer = 1 ∧
    (∀ r ∈ single_flight_results key f1 fs1 fs2 b0,
      observed_buffer b0 (fun f => if f = f1 then some b0 else none) r
        = some b0) ∧
    ((single_flight_results key f1 fs1 fs2 b0).map
        (fun r => resolve_constant_runs mp res sg kres
          (lookup_of b0 (fun f => if f = f1 then some b0 else none) r))).flatten
      = constant_kernel_runs sg kres := by
  have h1 : run_calls key [] (f1 :: fs1)
      = (GetOrAddResult.producer :: fs1.map (fun _ => GetOrAddResult.waiter f1),
         [(key, CacheEntry.pending f1)]) := by
    simp [run_calls, get_or_add, cache_lookup, run_calls_pending]
  have h2 : publish_entry [(key, CacheEntry.pending f1)] key b0
      = [(key, CacheEntry.ready b0)] := by
    simp [publish_entry]
  have hres : single_flight_results key f1 fs1 fs2 b0
      = GetOrAddResult.producer
          :: (fs1.map (fun _ => GetOrAddResult.waiter f1)
              ++ fs2.map (fun _ => GetOrAddResult.ready_hit b0)) := by
    unfold single_flight_results
    rw [h1]
    simp only []
    rw [h2, run_calls_ready]
    rfl
  refine ⟨hres, ?_, ?_, ?_⟩
  · rw [hres]
    have hw : (fs1.map (fun _ => GetOrAddResult.waiter f1)).count
        GetOrAddResult.producer = 0 := by
      rw [List.count_eq_zero]
      intro hmem
      rcases List.mem_map.mp hmem with ⟨x, _, hx⟩
      cases hx
    have hr : (fs2.map (fun _ => GetOrAddResult.ready_hit b0)).count
        GetOrAddResult.producer = 0 := by
      rw [List.count_eq_zero]
      intro hmem
      rcases List.mem_map.mp hmem with ⟨x, _, hx⟩
      cases hx
    rw [List.count_cons_self, List.count_append, hw, hr]
  · rw [hres]
    intro r hmem
    rcases List.mem_cons.mp hmem with heq | hmem2
    · rw [heq]; rfl
    · rcases List.mem_append.mp hmem2 with hw | hr
      · rcases List.mem_map.mp hw with ⟨x, _, hx⟩
        rw [← hx]
        simp [observed_buffer]
      · rcases List.mem_map.mp hr with ⟨x, _, hx⟩
        rw [← hx]
        rfl
  · rw [hres]
    rw [List.map_cons, List.map_append, List.map_map, List.map_map]
    have hw : ((fun r => resolve_constant_runs mp res sg kres
          (lookup_of b0 (fun f => if f = f1 then some b0 else none) r))
          ∘ (fun _ => GetOrAddResult.waiter f1))
        = fun (_ : Nat) => ([] : List ExecEvent) := by
      funext x
      simp [Function.comp, lookup_of, resolve_constant_runs_hit]
    have hr : ((fun r => resolve_constant_runs mp res sg kres
          (lookup_of b0 (fun f => if f = f1 then some b0 else none) r))
          ∘ (fun _ => GetOrAddResult.ready_hit b0))
        = fun (_ : Nat) => ([] : List ExecEvent) := by
      funext x
      simp [Function.comp, lookup_of, resolve_constant_runs_hit]
    rw [hw, hr, List.flatten_cons, List.flatten_append, flatten_map_nil,
      flatten_map_nil]
    simp [lookup_of, resolve_constant_runs_miss]

/-- Claim C1 witness: a concrete interleaving with four callers (futures
0; 1, 2 before publication; 3 after) on key 11 has exactly one
producer. -/
theorem c1_witness :
    (single_flight_results 11 0 [1, 2] [3] 77).count GetOrAddResult.producer
      = 1 :=
  (c1_single_flight 11 0 77 [1, 2] [3] ⟨0, 0, fun _ => 0, fun _ => 0⟩
      ⟨[], [], [], []⟩ ⟨[true]⟩ (fun _ => Status.success)).2.1

end Dnnl
